import Mathlib

/-!
Shallow embedding of the RustDesk Server Monitor (`rustdesk_server.py`).

The SQLite tables (`peer`, `device_info`, `heartbeat_logs`, `device_notes`)
are modelled as lists, the in-process `online_devices` dict as an
association list, and timestamps as natural-number seconds.  Python values
that may carry heterogeneous JSON scalars are modelled by `PyVal`, with
their truthiness, `str()` rendering and `isdigit` test made explicit, so
that the version-parsing and empty-id guards of the source are reproduced
faithfully.  String slicing `s[:n]` is character-based in Python and is
modelled by `pyTake`.
-/

/-- Configured offline timeout in seconds (`OFFLINE_TIMEOUT_SECONDS = 90`). -/
def OFFLINE_TIMEOUT_SECONDS : Nat := 90

/-- Retention bound of the heartbeat log (`LIMIT 1000` in `log_heartbeat`). -/
def HEARTBEAT_RETENTION : Nat := 1000

/-- Byte ceiling on heartbeat request bodies (the 10KB check in the handler). -/
def HEARTBEAT_BODY_LIMIT : Nat := 10240

/-- Python slice `s[:n]`: the first `n` characters of a string. -/
def pyTake (n : Nat) (s : String) : String := String.mk (s.data.take n)

/-- A JSON scalar as Python sees it: an integer, a string, or None.  A
string whose characters all have the Unicode digit property (so that
`str.isdigit` is true) but that is not pure ASCII is `vDigitStr`; it carries
the outcome of `int()` on it — `some k` when every character is a decimal
digit (Numeric_Type=Decimal, e.g. Arabic-Indic digits), `none` when `int()`
raises ValueError (digit-property but non-decimal characters such as
superscripts) — because that outcome is fixed by the Unicode character
database, which the embedding takes as given rather than re-tabulating.
Every other string is `vStr`, for which both observations are computed from
its characters. -/
inductive PyVal where
  | vInt (n : Int)
  | vStr (s : String)
  | vDigitStr (s : String) (intval : Option Int)
  | vNone
deriving DecidableEq

/-- Python `str()` on a scalar. -/
def pyStr : PyVal → String
  | .vInt n => toString n
  | .vStr s => s
  | .vDigitStr s _ => s
  | .vNone => "None"

/-- Python truthiness of a scalar. -/
def pyTruthy : PyVal → Bool
  | .vInt n => n != 0
  | .vStr s => s != ""
  | .vDigitStr s _ => s != ""
  | .vNone => false

/-- Python `str.isdigit` on a string of ASCII characters: nonempty and every
character an ASCII decimal digit (for such strings the Unicode and ASCII
readings agree); isdigit-true strings with non-ASCII characters are
represented by `PyVal.vDigitStr` instead. -/
def isDigitStr (s : String) : Bool := s != "" && s.data.all Char.isDigit

/-- Value of a string of decimal digits, most significant first. -/
def digitsToNat (l : List Char) : Nat :=
  l.foldl (fun acc c => acc * 10 + (c.toNat - 48)) 0

/-- Python `str(v).isdigit()`: computed from the characters where the
`str()` form is covered by the ASCII reading, true by construction for
`vDigitStr`. -/
def pyIsDigit : PyVal → Bool
  | .vDigitStr _ _ => true
  | v => isDigitStr (pyStr v)

/-- Python `int(v)` for a value passing the isdigit guard: the integer
itself, the numeric value of an ASCII decimal string, or the carried
attribute of a `vDigitStr` (`none` when `int()` raises ValueError). -/
def pyIntOpt : PyVal → Option Int
  | .vInt n => some n
  | .vStr s => some ((digitsToNat s.data : Nat) : Int)
  | .vDigitStr _ iv => iv
  | .vNone => none

/-- Version handling in `DatabaseManager.log_heartbeat`:
`int(version) if version and str(version).isdigit() else None`.
`some stored` is the value bound into the INSERT (with `none` the SQL NULL);
the outer `none` is the ValueError raised by `int()` on a digit-property but
non-decimal string, which the enclosing try/except turns into a silent abort
of the whole call before the INSERT runs. -/
def parseVersion (v : PyVal) : Option (Option Int) :=
  if pyTruthy v && pyIsDigit v then
    match pyIntOpt v with
    | some k => some (some k)
    | none => none
  else some none

/-- Update-or-insert on an association list, keyed on the first component;
models both SQL `UPDATE`/`INSERT` pairs and `INSERT OR REPLACE`. -/
def setAssoc {α : Type} (l : List (String × α)) (k : String) (v : α) : List (String × α) :=
  match l with
  | [] => [(k, v)]
  | (k1, v1) :: t => if k1 = k then (k, v) :: t else (k1, v1) :: setAssoc t k v

/-- An entry of the in-memory `online_devices` table. -/
structure PresenceRec where
  last_heartbeat : Nat
  ip : String
deriving DecidableEq

/-- A row of the `device_info` table. -/
structure DeviceRecord where
  hostname : String
  username : String
  os : String
  cpu : String
  memory : String
  version : String
  uuid : String
  created_at : Nat
  last_seen : Nat
  last_ip : String
deriving DecidableEq

/-- A row of the `device_notes` table. -/
structure NoteRec where
  note : String
  updated_at : Nat
deriving DecidableEq

/-- A row of the `heartbeat_logs` table; `rowid` is the AUTOINCREMENT key. -/
structure HBEntry where
  rowid : Nat
  device_id : String
  ip_address : String
  timestamp : Nat
  version : Option Int
deriving DecidableEq

/-- A row of the external registry's `peer` table. -/
structure PeerRow where
  id : String
  created_at : Nat
  info_ip : Option String
deriving DecidableEq

/-- The whole mutable state of the monitor process. -/
structure ServerState where
  peerTable : List PeerRow
  online_devices : List (String × PresenceRec)
  device_info : List (String × DeviceRecord)
  heartbeat_logs : List HBEntry
  nextRowid : Nat
  device_notes : List (String × NoteRec)
deriving DecidableEq

/-- The state of a freshly started process over an empty monitor database. -/
def emptyState : ServerState :=
  { peerTable := [], online_devices := [], device_info := [],
    heartbeat_logs := [], nextRowid := 0, device_notes := [] }

/-- One element of the list returned by `RustDeskMonitor.get_all_peer_ids`. -/
structure Peer where
  id : String
  created_at : Nat
  ip : String
deriving DecidableEq

/-- Row conversion inside `RustDeskMonitor.get_all_peer_ids`: falsy ids and
missing registry IPs become the unknown sentinel. -/
def peerOfRow (r : PeerRow) : Peer :=
  { id := if r.id ≠ "" then r.id else "未知",
    created_at := r.created_at,
    ip := match r.info_ip with
          | some s => if s ≠ "" then s else "未知"
          | none => "未知" }

/-- `RustDeskMonitor.get_all_peer_ids`:
`SELECT id, created_at, info FROM peer ORDER BY created_at ASC`. -/
def get_all_peer_ids (tbl : List PeerRow) : List Peer :=
  (List.insertionSort (fun a b => a.created_at ≤ b.created_at) tbl).map peerOfRow

/-- Lexicographic strictly-greater on (timestamp, rowid): `a` sorts before `b`
under `ORDER BY timestamp DESC`, with the unspecified SQLite tie order
modelled as newest rowid first. -/
def hbKeyGt (a b : HBEntry) : Bool :=
  b.timestamp < a.timestamp || (a.timestamp == b.timestamp && b.rowid < a.rowid)

/-- Number of rows ranked strictly above `e` by `ORDER BY timestamp DESC`. -/
def hbRank (log : List HBEntry) (e : HBEntry) : Nat :=
  log.countP (fun x => hbKeyGt x e)

/-- The DELETE in `log_heartbeat`: keep exactly the rows selected by
`SELECT id FROM heartbeat_logs ORDER BY timestamp DESC LIMIT 1000`. -/
def trimLog (log : List HBEntry) : List HBEntry :=
  log.filter (fun e => hbRank log e < HEARTBEAT_RETENTION)

/-- `DatabaseManager.log_heartbeat`: truncate the fields, parse the version
leniently, insert one row, then trim to the most recent 1000 rows; when the
version parse raises ValueError the blanket `except` swallows it and nothing
is inserted. -/
def log_heartbeat (st : ServerState) (device_id ip_address : String)
    (version : PyVal) (now : Nat) : ServerState :=
  match parseVersion version with
  | none => st
  | some ver =>
    let e : HBEntry :=
      { rowid := st.nextRowid,
        device_id := pyTake 255 device_id,
        ip_address := pyTake 45 ip_address,
        timestamp := now,
        version := ver }
    { st with heartbeat_logs := trimLog (st.heartbeat_logs ++ [e]),
              nextRowid := st.nextRowid + 1 }

/-- The JSON payload of a system-info report, as read by
`DatabaseManager.update_device_info`. -/
structure SysPayload where
  id : Option PyVal
  hostname : Option PyVal
  username : Option PyVal
  os : Option PyVal
  cpu : Option PyVal
  memory : Option PyVal
  version : Option PyVal
  uuid : Option PyVal
deriving DecidableEq

/-- Python `str(payload.get(field, ""))` for an optional payload field. -/
def pyField (o : Option PyVal) : String := pyStr (o.getD (.vStr ""))

/-- `DatabaseManager.update_device_info`: silent no-op on a falsy id;
truncate every field; INSERT with `created_at = last_seen = now` on first
sight of the id, otherwise UPDATE everything except `created_at`. -/
def update_device_info (st : ServerState) (p : SysPayload)
    (ip_address : String) (now : Nat) : ServerState :=
  match p.id with
  | none => st
  | some idv =>
    if pyTruthy idv then
      let did := pyStr idv
      let rec0 : DeviceRecord :=
        { hostname := pyTake 255 (pyField p.hostname),
          username := pyTake 255 (pyField p.username),
          os := pyTake 500 (pyField p.os),
          cpu := pyTake 500 (pyField p.cpu),
          memory := pyTake 100 (pyField p.memory),
          version := pyTake 50 (pyField p.version),
          uuid := pyTake 255 (pyField p.uuid),
          created_at := now, last_seen := now,
          last_ip := pyTake 45 ip_address }
      match List.lookup did st.device_info with
      | some old =>
        { st with
          device_info :=
            setAssoc st.device_info did ({ rec0 with created_at := old.created_at }) }
      | none =>
        { st with device_info := setAssoc st.device_info did rec0 }
    else st

/-- `DatabaseManager.get_device_info`: the stored row, or nothing. -/
def get_device_info (st : ServerState) (device_id : String) : Option DeviceRecord :=
  List.lookup device_id st.device_info

/-- `DatabaseManager.get_device_note`: the stored note text, or the empty
string; note that the lookup key is NOT truncated here. -/
def get_device_note (st : ServerState) (device_id : String) : String :=
  match List.lookup device_id st.device_notes with
  | some r => r.note
  | none => ""

/-- `DatabaseManager.update_device_note`: truncate the id to 255 characters
and the note to 500, then `INSERT OR REPLACE`. -/
def update_device_note (st : ServerState) (device_id note : String) (now : Nat) : ServerState :=
  { st with
    device_notes :=
      setAssoc st.device_notes (pyTake 255 device_id)
        ({ note := pyTake 500 note, updated_at := now }) }

/-- The online check inside `get_devices`: a presence record exists and
`datetime.now() - last_heartbeat < timedelta(seconds=90)`. -/
def is_online_check (online : List (String × PresenceRec)) (device_id : String) (now : Nat) : Bool :=
  match List.lookup device_id online with
  | some r => decide (now - r.last_heartbeat < OFFLINE_TIMEOUT_SECONDS)
  | none => false

/-- One merged row of the `/api/devices` response. -/
structure MergedDevice where
  id : String
  note : String
  created_at : Nat
  original_ip : String
  hostname : String
  username : String
  os : String
  cpu : String
  memory : String
  version : String
  last_ip : String
  is_online : Bool
  last_heartbeat_time : Option Nat
deriving DecidableEq

/-- The per-peer merge step of `get_devices`; `none` for
`last_heartbeat_time` renders as "从未" (never). -/
def mergeDevice (st : ServerState) (now : Nat) (p : Peer) : MergedDevice :=
  let detail := get_device_info st p.id
  { id := p.id,
    note := get_device_note st p.id,
    created_at := p.created_at,
    original_ip := p.ip,
    hostname := (detail.map (fun d => d.hostname)).getD "",
    username := (detail.map (fun d => d.username)).getD "",
    os := (detail.map (fun d => d.os)).getD "",
    cpu := (detail.map (fun d => d.cpu)).getD "",
    memory := (detail.map (fun d => d.memory)).getD "",
    version := (detail.map (fun d => d.version)).getD "",
    last_ip := match detail with
               | some d => d.last_ip
               | none => p.ip,
    is_online := is_online_check st.online_devices p.id now,
    last_heartbeat_time := (List.lookup p.id st.online_devices).map (fun r => r.last_heartbeat) }

/-- The `/api/devices` response shape. -/
structure DevicesResponse where
  total : Nat
  online : Nat
  offline : Nat
  devices : List MergedDevice
deriving DecidableEq

/-- The `/api/devices` handler `get_devices`. -/
def get_devices (st : ServerState) (now : Nat) : DevicesResponse :=
  let devices := (get_all_peer_ids st.peerTable).map (mergeDevice st now)
  let online_count := devices.countP (fun d => d.is_online)
  { total := devices.length,
    online := online_count,
    offline := devices.length - online_count,
    devices := devices }

/-- The JSON body of a heartbeat request: invalid JSON is `Option.none` at
the request level, a non-dict body is `notDict`, and a dict carries the
optional `id` and `ver` members. -/
inductive HBBody where
  | notDict
  | dict (id : Option PyVal) (ver : Option PyVal)
deriving DecidableEq

/-- A heartbeat request as the handler sees it. -/
structure HBRequest where
  client_ip : String
  content_length : Option Nat
  body : Option HBBody
deriving DecidableEq

/-- The outcome of a handler: success, an HTTPException with a status code,
or the generic 500 produced by the outer exception handler. -/
inductive HBOutcome where
  | ok
  | httpError (code : Nat)
  | serverError
deriving DecidableEq

/-- The `/api/heartbeat` handler: 413 on an oversized content-length before
the body is read, 500 when the body is not JSON, 400 when it is not a dict;
a truthy id appends to the heartbeat log and overwrites the presence record,
and any other id is silently acknowledged with success. -/
def heartbeat (st : ServerState) (req : HBRequest) (now : Nat) : ServerState × HBOutcome :=
  if (match req.content_length with
      | some n => decide (HEARTBEAT_BODY_LIMIT < n)
      | none => false) then
    (st, .httpError 413)
  else
    match req.body with
    | none => (st, .serverError)
    | some .notDict => (st, .httpError 400)
    | some (.dict idv ver) =>
      let version := ver.getD (.vInt 0)
      match idv with
      | some v =>
        if pyTruthy v then
          let did := pyTake 255 (pyStr v)
          let st1 := log_heartbeat st did req.client_ip version now
          let st2 :=
            { st1 with
              online_devices :=
                setAssoc st1.online_devices did
                  ({ last_heartbeat := now, ip := req.client_ip }) }
          (st2, .ok)
        else (st, .ok)
      | none => (st, .ok)

/-- Fold `DatabaseManager.log_heartbeat` over a trace of
(device_id, ip, version, now) calls starting from the empty state. -/
def runHeartbeatLog (calls : List (String × String × PyVal × Nat)) : ServerState :=
  calls.foldl (fun st c => log_heartbeat st c.1 c.2.1 c.2.2.1 c.2.2.2) emptyState

/-- Fold `DatabaseManager.update_device_info` over a trace of
(payload, ip, now) calls. -/
def sysRun (st : ServerState) (calls : List (SysPayload × String × Nat)) : ServerState :=
  calls.foldl (fun s c => update_device_info s c.1 c.2.1 c.2.2) st

/-- Spec-side reading of the version rule for `append_heartbeat_log`, for
comparison with `parseVersion`: a present value parseable as a non-negative
integer. -/
def specVersionParse : PyVal → Option Int
  | .vInt n => if 0 ≤ n then some n else none
  | .vStr s => if isDigitStr s then some ((digitsToNat s.data : Nat) : Int) else none
  | .vDigitStr _ iv =>
    match iv with
    | some k => if 0 ≤ k then some k else none
    | none => none
  | .vNone => none

/-- Invariant of the heartbeat log: stored rowids are below the next
AUTOINCREMENT value and pairwise distinct, and the retention bound holds. -/
def LogInv (st : ServerState) : Prop :=
  (∀ e ∈ st.heartbeat_logs, e.rowid < st.nextRowid) ∧
  st.heartbeat_logs.Pairwise (fun a b => a.rowid ≠ b.rowid) ∧
  st.heartbeat_logs.length ≤ HEARTBEAT_RETENTION

/-! Helper lemmas about the association-list update and Python slicing. -/

/-- Looking up the key just written by `setAssoc` yields the written value. -/
theorem lookup_setAssoc_self {α : Type} (l : List (String × α)) (k : String) (v : α) :
    List.lookup k (setAssoc l k v) = some v := by
  induction l with
  | nil => simp [setAssoc]
  | cons hd t ih =>
    obtain ⟨k1, v1⟩ := hd
    simp only [setAssoc]
    by_cases hk : k1 = k
    · simp [hk]
    · simp [hk, List.lookup, ih, beq_eq_false_iff_ne.mpr (Ne.symm hk)]

/-- `setAssoc` leaves every other key unchanged. -/
theorem lookup_setAssoc_ne {α : Type} (l : List (String × α)) (k k2 : String) (v : α)
    (h : k2 ≠ k) : List.lookup k2 (setAssoc l k v) = List.lookup k2 l := by
  induction l with
  | nil => simp [setAssoc, List.lookup, beq_eq_false_iff_ne.mpr h]
  | cons hd t ih =>
    obtain ⟨k1, v1⟩ := hd
    simp only [setAssoc]
    by_cases hk : k1 = k
    · subst hk
      simp [List.lookup, beq_eq_false_iff_ne.mpr h]
    · rw [if_neg hk]
      cases hbeq : k2 == k1 <;> simp [List.lookup, hbeq, ih]

/-- Slicing a string to at least its own length is the identity. -/
theorem pyTake_eq_self {n : Nat} {s : String} (h : s.length ≤ n) : pyTake n s = s := by
  obtain ⟨data⟩ := s
  exact congrArg String.mk (List.take_of_length_le h)

/-- The rows of the merged view are exactly the registry peers, merged. -/
theorem get_devices_devices (st : ServerState) (now : Nat) :
    (get_devices st now).devices = (get_all_peer_ids st.peerTable).map (mergeDevice st now) := rfl

/-- The merged view lists exactly the registry identities, in order. -/
theorem get_devices_ids (st : ServerState) (now : Nat) :
    (get_devices st now).devices.map (fun d => d.id) =
      (get_all_peer_ids st.peerTable).map (fun p => p.id) := by
  rw [get_devices_devices, List.map_map]
  rfl

/-- C1: for a device with a presence record whose last heartbeat is T, the
online judgment at time `now` is true exactly when `now - T` is strictly
below the 90-second timeout; at `now - T = 90` the device is judged offline,
and a device with no presence record is judged offline. -/
theorem online_iff_recent_heartbeat (online : List (String × PresenceRec)) (d : String) (now : Nat) :
    (is_online_check online d now = true ↔
      ∃ r, List.lookup d online = some r ∧ now - r.last_heartbeat < OFFLINE_TIMEOUT_SECONDS) ∧
    (∀ r, List.lookup d online = some r → now - r.last_heartbeat = OFFLINE_TIMEOUT_SECONDS →
      is_online_check online d now = false) ∧
    (List.lookup d online = none → is_online_check online d now = false) ∧
    OFFLINE_TIMEOUT_SECONDS = 90 := by
  refine ⟨?_, ?_, ?_, rfl⟩
  · cases h : List.lookup d online with
    | none => simp [is_online_check, h]
    | some r => simp [is_online_check, h]
  · intro r hr he
    simp [is_online_check, hr, he]
  · intro h
    simp [is_online_check, h]

/-- C1 witness: a record 40 seconds old is judged online. -/
theorem online_iff_recent_heartbeat_witness :
    is_online_check [("a", { last_heartbeat := 10, ip := "x" })] "a" 50 = true :=
  (online_iff_recent_heartbeat [("a", { last_heartbeat := 10, ip := "x" })] "a" 50).1.mpr
    ⟨{ last_heartbeat := 10, ip := "x" }, by decide, by decide⟩

/-- C5: a heartbeat request whose declared payload size exceeds the
10240-byte ceiling is rejected with HTTP 413 and neither the presence table,
the telemetry records, nor the heartbeat log is modified. -/
theorem oversized_heartbeat_rejected (st : ServerState) (req : HBRequest) (now n : Nat)
    (hcl : req.content_length = some n) (hn : HEARTBEAT_BODY_LIMIT < n) :
    heartbeat st req now = (st, .httpError 413) ∧
    (heartbeat st req now).1.online_devices = st.online_devices ∧
    (heartbeat st req now).1.device_info = st.device_info ∧
    (heartbeat st req now).1.heartbeat_logs = st.heartbeat_logs := by
  have h413 : heartbeat st req now = (st, .httpError 413) := by
    unfold heartbeat
    rw [hcl]
    simp [hn]
  exact ⟨h413, by rw [h413], by rw [h413], by rw [h413]⟩

/-- C5 witness: a 20000-byte declared body is rejected as 413. -/
theorem oversized_heartbeat_rejected_witness :
    heartbeat emptyState
      { client_ip := "9.9.9.9", content_length := some 20000,
        body := some (.dict (some (.vStr "dev")) none) } 5 = (emptyState, .httpError 413) :=
  (oversized_heartbeat_rejected emptyState
    { client_ip := "9.9.9.9", content_length := some 20000,
      body := some (.dict (some (.vStr "dev")) none) } 5 20000 rfl (by decide)).1

/-- C7 counterexample: a heartbeat whose body carries an empty id is answered
with the success acknowledgement (and mutates nothing); it is not reported
as a client validation error. -/
theorem empty_id_heartbeat_not_rejected :
    heartbeat emptyState
      { client_ip := "9.9.9.9", content_length := some 10,
        body := some (.dict (some (.vStr "")) none) } 5 = (emptyState, .ok) ∧
    HBOutcome.ok ≠ HBOutcome.httpError 400 :=
  ⟨rfl, by decide⟩

/-- C7 amended: a heartbeat whose device id is the empty string is accepted
with the success acknowledgement and leaves the whole state unchanged, rather
than being rejected as a validation error. -/
theorem empty_id_heartbeat_silently_ok (st : ServerState) (req : HBRequest) (now : Nat)
    (hcl : ∀ n, req.content_length = some n → n ≤ HEARTBEAT_BODY_LIMIT)
    (v : Option PyVal) (hbody : req.body = some (.dict (some (.vStr "")) v)) :
    heartbeat st req now = (st, .ok) := by
  have hc : (match req.content_length with
      | some n => decide (HEARTBEAT_BODY_LIMIT < n)
      | none => false) = false := by
    cases h : req.content_length with
    | none => rfl
    | some n => simpa using hcl n h
  unfold heartbeat
  rw [hbody, hc]
  simp [pyTruthy]

/-- C7 witness: a concrete empty-id heartbeat is acknowledged and ignored. -/
theorem empty_id_heartbeat_silently_ok_witness :
    heartbeat emptyState
      { client_ip := "7.7.7.7", content_length := none,
        body := some (.dict (some (.vStr "")) (some (.vInt 3))) } 9 = (emptyState, .ok) :=
  empty_id_heartbeat_silently_ok emptyState
    { client_ip := "7.7.7.7", content_length := none,
      body := some (.dict (some (.vStr "")) (some (.vInt 3))) } 9
    (fun _ h => nomatch h) (some (.vInt 3)) rfl

set_option maxRecDepth 4000 in
/-- C9 counterexample: with a 256-character device id the stored key is
truncated to 255 characters but the lookup key is not, so a set followed by
a get returns the empty string instead of the written text. -/
theorem long_id_note_not_returned :
    get_device_note
      (update_device_note emptyState (String.mk (List.replicate 256 'a')) "hello" 0)
      (String.mk (List.replicate 256 'a')) = "" ∧
    pyTake 500 "hello" = "hello" ∧ "hello" ≠ "" :=
  ⟨by decide, by decide, by decide⟩

/-- C9 amended: for device ids of at most 255 characters, a set followed by a
get returns exactly the text truncated to 500 characters, wholesale
overwriting whatever note the prior state held. -/
theorem note_roundtrip_truncated (st : ServerState) (d text : String) (now : Nat)
    (hlen : d.length ≤ 255) :
    get_device_note (update_device_note st d text now) d = pyTake 500 text := by
  unfold get_device_note update_device_note
  rw [pyTake_eq_self hlen]
  simp [lookup_setAssoc_self]

/-- C9 witness: a concrete round-trip over a prior note. -/
theorem note_roundtrip_truncated_witness :
    get_device_note
      (update_device_note (update_device_note emptyState "dev" "old note" 1) "dev" "hello" 3)
      "dev" = pyTake 500 "hello" :=
  note_roundtrip_truncated (update_device_note emptyState "dev" "old note" 1) "dev" "hello" 3
    (by decide)

/-- C10: a registry identity with no telemetry record appears in the merged
view with `last_ip` equal to the registry-recorded IP for that identity. -/
theorem registry_ip_fallback (st : ServerState) (now : Nat) (p : Peer)
    (hp : p ∈ get_all_peer_ids st.peerTable)
    (hnone : get_device_info st p.id = none) :
    ∃ dv, dv ∈ (get_devices st now).devices ∧ dv.id = p.id ∧
      dv.last_ip = p.ip ∧ dv.original_ip = p.ip := by
  refine ⟨mergeDevice st now p, ?_, rfl, ?_, rfl⟩
  · rw [get_devices_devices]
    exact List.mem_map_of_mem _ hp
  · simp [mergeDevice, hnone]

/-- C10 witness: one registered identity, no telemetry, falls back to the
registry IP. -/
theorem registry_ip_fallback_witness :
    ∃ dv, dv ∈ (get_devices
        { emptyState with
          peerTable := [{ id := "A", created_at := 0, info_ip := some "1.1.1.1" }] } 5).devices ∧
      dv.id = "A" ∧ dv.last_ip = "1.1.1.1" ∧ dv.original_ip = "1.1.1.1" :=
  registry_ip_fallback
    { emptyState with
      peerTable := [{ id := "A", created_at := 0, info_ip := some "1.1.1.1" }] } 5
    { id := "A", created_at := 0, ip := "1.1.1.1" } (by decide) (by decide)

/-- Updating telemetry for an already-known device keeps `created_at` and
stamps `last_seen` with the call time. -/
theorem update_device_info_existing (st : ServerState) (p : SysPayload) (ip : String) (now : Nat)
    (d : String) (r : DeviceRecord)
    (hid : p.id = some (.vStr d)) (hd : d ≠ "")
    (hr : List.lookup d st.device_info = some r) :
    ∃ r2, List.lookup d (update_device_info st p ip now).device_info = some r2 ∧
      r2.created_at = r.created_at ∧ r2.last_seen = now := by
  have ht : pyTruthy (.vStr d) = true := bne_iff_ne.mpr hd
  unfold update_device_info
  rw [hid]
  simp only [ht, if_true, pyStr, hr]
  exact ⟨_, lookup_setAssoc_self _ _ _, rfl, rfl⟩

/-- Updating telemetry for an unknown device creates the record with
`created_at = last_seen = now`. -/
theorem update_device_info_fresh (st : ServerState) (p : SysPayload) (ip : String) (now : Nat)
    (d : String)
    (hid : p.id = some (.vStr d)) (hd : d ≠ "")
    (hr : List.lookup d st.device_info = none) :
    ∃ r2, List.lookup d (update_device_info st p ip now).device_info = some r2 ∧
      r2.created_at = now ∧ r2.last_seen = now := by
  have ht : pyTruthy (.vStr d) = true := bne_iff_ne.mpr hd
  unfold update_device_info
  rw [hid]
  simp only [ht, if_true, pyStr, hr]
  exact ⟨_, lookup_setAssoc_self _ _ _, rfl, rfl⟩

/-- Running a trace of same-device system-info calls preserves `created_at`
and leaves `last_seen` at the time of the most recent call. -/
theorem sysRun_same_device (d : String) (hd : d ≠ "")
    (calls : List (SysPayload × String × Nat)) :
    ∀ (st : ServerState) (r : DeviceRecord),
      (∀ c ∈ calls, c.1.id = some (.vStr d)) →
      List.lookup d st.device_info = some r →
      ∃ r2, List.lookup d (sysRun st calls).device_info = some r2 ∧
        r2.created_at = r.created_at ∧
        r2.last_seen = calls.foldl (fun _ c => c.2.2) r.last_seen := by
  induction calls with
  | nil => intro st r _ hr; exact ⟨r, hr, rfl, rfl⟩
  | cons c t ih =>
    intro st r hall hr
    obtain ⟨r1, hr1, hc1, hl1⟩ :=
      update_device_info_existing st c.1 c.2.1 c.2.2 d r (hall c (by simp)) hd hr
    obtain ⟨r2, hr2, hc2, hl2⟩ := ih (update_device_info st c.1 c.2.1 c.2.2) r1
      (fun x hx => hall x (by simp [hx])) hr1
    refine ⟨r2, hr2, by rw [hc2, hc1], ?_⟩
    have : (c :: t).foldl (fun _ x => x.2.2) r.last_seen = t.foldl (fun _ x => x.2.2) c.2.2 := rfl
    rw [this, hl2, hl1]

/-- Under chain-monotone times, the first time bounds the fold that tracks
the most recent call time. -/
theorem time_le_foldl (c : SysPayload × String × Nat) (calls : List (SysPayload × String × Nat))
    (h : List.Chain (fun a b => a.2.2 ≤ b.2.2) c calls) :
    c.2.2 ≤ calls.foldl (fun _ x => x.2.2) c.2.2 := by
  induction calls generalizing c with
  | nil => exact Nat.le_refl _
  | cons b t ih =>
    cases h with
    | cons hab hbt => exact Nat.le_trans hab (ih b hbt)

/-- C4: over any nonempty sequence of same-device system-info calls with
nondecreasing times, starting from a state without a record for the device,
`created_at` stays at the value set by the first call, `last_seen` is the
time of the most recent call, and `created_at ≤ last_seen`. -/
theorem upsert_created_at_stable (st0 : ServerState) (d : String)
    (c : SysPayload × String × Nat) (calls : List (SysPayload × String × Nat))
    (hd : d ≠ "")
    (hall : ∀ x ∈ c :: calls, x.1.id = some (.vStr d))
    (h0 : List.lookup d st0.device_info = none)
    (hmono : List.Chain' (fun a b => a.2.2 ≤ b.2.2) (c :: calls)) :
    ∃ r, List.lookup d (sysRun st0 (c :: calls)).device_info = some r ∧
      r.created_at = c.2.2 ∧
      r.last_seen = calls.foldl (fun _ x => x.2.2) c.2.2 ∧
      r.created_at ≤ r.last_seen := by
  obtain ⟨r1, hr1, hc1, hl1⟩ :=
    update_device_info_fresh st0 c.1 c.2.1 c.2.2 d (hall c (by simp)) hd h0
  obtain ⟨r2, hr2, hc2, hl2⟩ :=
    sysRun_same_device d hd calls (update_device_info st0 c.1 c.2.1 c.2.2) r1
      (fun x hx => hall x (by simp [hx])) hr1
  have hchain : List.Chain (fun a b => a.2.2 ≤ b.2.2) c calls := hmono
  refine ⟨r2, hr2, by rw [hc2, hc1], by rw [hl2, hl1], ?_⟩
  rw [hc2, hc1, hl2, hl1]
  exact time_le_foldl c calls hchain

/-- C4 witness: two concrete same-device calls at times 3 then 8. -/
theorem upsert_created_at_stable_witness :
    ∃ r, List.lookup "dev"
        (sysRun emptyState
          [({ id := some (.vStr "dev"), hostname := none, username := none, os := none,
              cpu := none, memory := none, version := none, uuid := none }, "1.1.1.1", 3),
           ({ id := some (.vStr "dev"), hostname := some (.vStr "h2"), username := none, os := none,
              cpu := none, memory := none, version := none, uuid := none }, "2.2.2.2", 8)]).device_info
        = some r ∧
      r.created_at = 3 ∧ r.last_seen = 8 ∧ r.created_at ≤ r.last_seen := by
  obtain ⟨r, h1, h2, h3, h4⟩ := upsert_created_at_stable emptyState "dev"
    ({ id := some (.vStr "dev"), hostname := none, username := none, os := none,
       cpu := none, memory := none, version := none, uuid := none }, "1.1.1.1", 3)
    [({ id := some (.vStr "dev"), hostname := some (.vStr "h2"), username := none, os := none,
        cpu := none, memory := none, version := none, uuid := none }, "2.2.2.2", 8)]
    (by decide) (by decide) (by decide)
    (by exact List.Chain.cons (by decide) List.Chain.nil)
  exact ⟨r, h1, h2, by simpa using h3, h4⟩

/-- Telemetry updates do not touch the registry table. -/
theorem update_device_info_peerTable (st : ServerState) (p : SysPayload) (ip : String) (now : Nat) :
    (update_device_info st p ip now).peerTable = st.peerTable := by
  cases hid : p.id with
  | none => simp [update_device_info, hid]
  | some idv =>
    by_cases ht : pyTruthy idv
    · cases hl : List.lookup (pyStr idv) st.device_info <;>
        simp [update_device_info, hid, ht, hl]
    · simp [update_device_info, hid, ht]

/-- C6: a system-info report for a device id unknown to the registry stores
a telemetry record that `get_device_info` then returns, yet the id never
appears in the merged device listing, whose rows come from the registry
alone. -/
theorem unknown_id_telemetry_stored (st : ServerState) (p : SysPayload) (d ip : String)
    (now qnow : Nat)
    (hd : d ≠ "") (hid : p.id = some (.vStr d))
    (hreg : d ∉ (get_all_peer_ids st.peerTable).map (fun q => q.id)) :
    (∃ r, get_device_info (update_device_info st p ip now) d = some r ∧ r.last_seen = now) ∧
    d ∉ ((get_devices (update_device_info st p ip now) qnow).devices.map (fun v => v.id)) := by
  constructor
  · cases hl : List.lookup d st.device_info with
    | some r =>
      obtain ⟨r2, h1, _, h3⟩ := update_device_info_existing st p ip now d r hid hd hl
      exact ⟨r2, h1, h3⟩
    | none =>
      obtain ⟨r2, h1, _, h3⟩ := update_device_info_fresh st p ip now d hid hd hl
      exact ⟨r2, h1, h3⟩
  · rw [get_devices_ids, update_device_info_peerTable]
    exact hreg

/-- C6 witness: registry knows only "A"; a report for "X" is stored and
retrievable but invisible to the listing. -/
theorem unknown_id_telemetry_stored_witness :
    (∃ r, get_device_info
        (update_device_info
          { emptyState with
            peerTable := [{ id := "A", created_at := 0, info_ip := some "1.1.1.1" }] }
          { id := some (.vStr "X"), hostname := none, username := none, os := none,
            cpu := none, memory := none, version := none, uuid := none } "3.3.3.3" 7)
        "X" = some r ∧ r.last_seen = 7) ∧
    "X" ∉ ((get_devices
        (update_device_info
          { emptyState with
            peerTable := [{ id := "A", created_at := 0, info_ip := some "1.1.1.1" }] }
          { id := some (.vStr "X"), hostname := none, username := none, os := none,
            cpu := none, memory := none, version := none, uuid := none } "3.3.3.3" 7)
        9).devices.map (fun v => v.id)) :=
  unknown_id_telemetry_stored
    { emptyState with
      peerTable := [{ id := "A", created_at := 0, info_ip := some "1.1.1.1" }] }
    { id := some (.vStr "X"), hostname := none, username := none, os := none,
      cpu := none, memory := none, version := none, uuid := none }
    "X" "3.3.3.3" 7 9 (by decide) rfl (by decide)

/-- A fresh entry appended after all rows it does not rank below survives
the trim. -/
theorem mem_trimLog_append (log : List HBEntry) (e : HBEntry)
    (h : ∀ x ∈ log, hbKeyGt x e = false) :
    e ∈ trimLog (log ++ [e]) := by
  have h0 : hbRank (log ++ [e]) e = 0 := by
    unfold hbRank
    apply List.countP_eq_zero.mpr
    intro x hx
    rcases List.mem_append.mp hx with hx | hx
    · simp [h x hx]
    · have hxe := List.mem_singleton.mp hx
      subst hxe
      simp [hbKeyGt]
  apply List.mem_filter.mpr
  refine ⟨List.mem_append_right _ (by simp), ?_⟩
  rw [h0]
  rfl

/-- When the version parse does not raise, `log_heartbeat` inserts its row
and the row survives its own trim whenever the clock is monotone and the
stored rowids are fresh. -/
theorem log_heartbeat_inserted (st : ServerState) (d ip : String) (v : PyVal) (now : Nat)
    (k : Option Int) (hk : parseVersion v = some k)
    (hts : ∀ e ∈ st.heartbeat_logs, e.timestamp ≤ now)
    (hrid : ∀ e ∈ st.heartbeat_logs, e.rowid < st.nextRowid) :
    ∃ e, e ∈ (log_heartbeat st d ip v now).heartbeat_logs ∧
      e.timestamp = now ∧ e.device_id = pyTake 255 d ∧ e.version = k := by
  have hlog : (log_heartbeat st d ip v now).heartbeat_logs =
      trimLog (st.heartbeat_logs ++
        [(⟨st.nextRowid, pyTake 255 d, pyTake 45 ip, now, k⟩ : HBEntry)]) := by
    unfold log_heartbeat
    rw [hk]
  refine ⟨⟨st.nextRowid, pyTake 255 d, pyTake 45 ip, now, k⟩, ?_, rfl, rfl, rfl⟩
  rw [hlog]
  apply mem_trimLog_append
  intro x hx
  have h1 := hts x hx
  have h2 := hrid x hx
  simp only [hbKeyGt]
  simp only [Bool.or_eq_false_iff, Bool.and_eq_false_iff, decide_eq_false_iff_not, beq_eq_false_iff_ne]
  omega

/-- C8 amended: when `int()` does not raise, one row with the call timestamp
is inserted and its stored version is exactly what the guard computed: a
falsy version or one failing `str.isdigit` stores SQL NULL, and a truthy
version passing `str.isdigit` whose `int()` succeeds stores that integer;
but when a truthy version passes `str.isdigit` and `int()` raises
(digit-property, non-decimal characters), the whole append is silently
skipped and no row is inserted. -/
theorem log_version_lenient (st : ServerState) (d ip : String) (v : PyVal) (now : Nat)
    (hts : ∀ e ∈ st.heartbeat_logs, e.timestamp ≤ now)
    (hrid : ∀ e ∈ st.heartbeat_logs, e.rowid < st.nextRowid) :
    (∀ k, parseVersion v = some k →
      ∃ e ∈ (log_heartbeat st d ip v now).heartbeat_logs,
        e.timestamp = now ∧ e.device_id = pyTake 255 d ∧ e.version = k) ∧
    (parseVersion v = none → log_heartbeat st d ip v now = st) ∧
    (¬(pyTruthy v = true ∧ pyIsDigit v = true) → parseVersion v = some none) ∧
    (∀ j, pyTruthy v = true → pyIsDigit v = true → pyIntOpt v = some j →
      parseVersion v = some (some j)) ∧
    (pyTruthy v = true → pyIsDigit v = true → pyIntOpt v = none → parseVersion v = none) := by
  refine ⟨?_, ?_, ?_, ?_, ?_⟩
  · intro k hk
    obtain ⟨e, h1, h2, h3, h4⟩ := log_heartbeat_inserted st d ip v now k hk hts hrid
    exact ⟨e, h1, h2, h3, h4⟩
  · intro hk
    unfold log_heartbeat
    rw [hk]
  · intro hng
    unfold parseVersion
    cases h1 : pyTruthy v <;> cases h2 : pyIsDigit v <;> simp_all
  · intro j h1 h2 h3
    unfold parseVersion
    rw [h1, h2, h3]
    rfl
  · intro h1 h2 h3
    unfold parseVersion
    rw [h1, h2, h3]
    rfl

/-- C8 witness: the ASCII string "7" is truthy all-digits and one row with
version 7 is inserted. -/
theorem log_version_lenient_witness :
    ∃ e ∈ (log_heartbeat emptyState "d" "8.8.8.8" (.vStr "7") 4).heartbeat_logs,
      e.timestamp = 4 ∧ e.device_id = pyTake 255 "d" ∧ e.version = some 7 :=
  (log_version_lenient emptyState "d" "8.8.8.8" (.vStr "7") 4
    (by simp [emptyState]) (by simp [emptyState])).1 (some 7) (by decide)

/-- C8 counterexample: the integer 0 is parseable as a non-negative integer
(the spec-side reading yields 0) yet the code stores the version as absent;
and for a version string with the Unicode digit property whose `int()`
conversion raises ValueError (superscript two), the append inserts no row at
all, so the entry is not always inserted. -/
theorem version_zero_stored_absent :
    specVersionParse (.vInt 0) = some 0 ∧ parseVersion (.vInt 0) = some none ∧
    ((log_heartbeat emptyState "d" "1.2.3.4" (.vInt 0) 5).heartbeat_logs.map
      (fun e => e.version)) = [none] ∧
    parseVersion (.vDigitStr "²" none) = none ∧
    log_heartbeat emptyState "d" "1.2.3.4" (.vDigitStr "²" none) 5 = emptyState :=
  ⟨by decide, by decide, by decide, by decide, by decide⟩

/-- C2: the merged listing has exactly one row per registry identity (its
ids are the registry ids, a permutation of the raw table's converted rows),
ordered by the registry first-seen timestamp ascending; `total` is the
number of registry identities, `online` counts the rows judged online, and
`offline` is their difference. -/
theorem list_devices_shape (st : ServerState) (now : Nat) :
    ((get_devices st now).devices.map (fun d => d.id) =
        (get_all_peer_ids st.peerTable).map (fun p => p.id)) ∧
    ((get_all_peer_ids st.peerTable).Perm (st.peerTable.map peerOfRow)) ∧
    List.Pairwise (fun a b => a.created_at ≤ b.created_at) (get_devices st now).devices ∧
    (get_devices st now).devices.length = st.peerTable.length ∧
    (get_devices st now).total = st.peerTable.length ∧
    (get_devices st now).online = (get_devices st now).devices.countP (fun d => d.is_online) ∧
    (get_devices st now).offline = (get_devices st now).total - (get_devices st now).online := by
  haveI ht1 : IsTotal PeerRow (fun a b => a.created_at ≤ b.created_at) :=
    ⟨fun a b => Nat.le_total _ _⟩
  haveI ht2 : IsTrans PeerRow (fun a b => a.created_at ≤ b.created_at) :=
    ⟨fun _ _ _ => Nat.le_trans⟩
  refine ⟨get_devices_ids st now, ?_, ?_, ?_, ?_, rfl, rfl⟩
  · exact (List.perm_insertionSort _ st.peerTable).map peerOfRow
  · rw [get_devices_devices, List.pairwise_map]
    unfold get_all_peer_ids
    rw [List.pairwise_map]
    exact List.sorted_insertionSort (fun a b => a.created_at ≤ b.created_at) st.peerTable
  · rw [get_devices_devices, List.length_map]
    unfold get_all_peer_ids
    rw [List.length_map, List.length_insertionSort]
  · show ((get_all_peer_ids st.peerTable).map (mergeDevice st now)).length = _
    rw [List.length_map]
    unfold get_all_peer_ids
    rw [List.length_map, List.length_insertionSort]

/-- C2 witness: two registered identities yield two rows, total 2. -/
theorem list_devices_shape_witness :
    (get_devices
      { emptyState with
        peerTable := [{ id := "B", created_at := 100, info_ip := some "2.2.2.2" },
                      { id := "A", created_at := 0, info_ip := some "1.1.1.1" }] } 150).total = 2 := by
  have h := (list_devices_shape
    { emptyState with
      peerTable := [{ id := "B", created_at := 100, info_ip := some "2.2.2.2" },
                    { id := "A", created_at := 0, info_ip := some "1.1.1.1" }] } 150).2.2.2.2.1
  simpa using h

/-- Key comparison is transitive. -/
theorem hbKeyGt_trans {a b c : HBEntry} (h1 : hbKeyGt a b = true) (h2 : hbKeyGt b c = true) :
    hbKeyGt a c = true := by
  simp only [hbKeyGt, Bool.or_eq_true, Bool.and_eq_true, decide_eq_true_eq, beq_iff_eq] at *
  omega

/-- Key comparison is irreflexive. -/
theorem hbKeyGt_irrefl (a : HBEntry) : hbKeyGt a a = false := by
  simp [hbKeyGt]

/-- Rows with distinct rowids are comparable. -/
theorem hbKeyGt_total_of_ne {a b : HBEntry} (h : a.rowid ≠ b.rowid) :
    hbKeyGt a b = true ∨ hbKeyGt b a = true := by
  simp only [hbKeyGt, Bool.or_eq_true, Bool.and_eq_true, decide_eq_true_eq, beq_iff_eq]
  omega

/-- Counting a disjunction of disjoint predicates adds the two counts. -/
theorem countP_or_disjoint {α : Type} (l : List α) (p q : α → Bool)
    (h : ∀ x, p x = true → q x = true → False) :
    List.countP (fun x => p x || q x) l = List.countP p l + List.countP q l := by
  induction l with
  | nil => simp
  | cons x t ih =>
    simp only [List.countP_cons, ih]
    cases hp : p x <;> cases hq : q x
    · simp
    · simp; omega
    · simp; omega
    · exact (h x hp hq).elim

/-- A row ranked strictly above another has strictly smaller rank. -/
theorem hbRank_lt_of_hbKeyGt {log : List HBEntry} {a b : HBEntry}
    (ha : a ∈ log) (hab : hbKeyGt a b = true) :
    hbRank log a < hbRank log b := by
  have hsub : List.countP (fun x => hbKeyGt x a || x == a) log ≤
      List.countP (fun x => hbKeyGt x b) log := by
    apply List.countP_mono_left
    intro x _ hpx
    rcases (Bool.or_eq_true _ _).mp hpx with hgt | hxe
    · exact hbKeyGt_trans hgt hab
    · rw [eq_of_beq hxe]
      exact hab
  have hsplit : List.countP (fun x => hbKeyGt x a || x == a) log =
      List.countP (fun x => hbKeyGt x a) log + List.countP (fun x => x == a) log := by
    apply countP_or_disjoint
    intro x hgt hxe
    rw [eq_of_beq hxe] at hgt
    rw [hbKeyGt_irrefl] at hgt
    exact Bool.false_ne_true hgt
  have hpos : 0 < List.countP (fun x => x == a) log := by
    rw [List.countP_pos_iff]
    exact ⟨a, ha, by simp⟩
  unfold hbRank
  omega

/-- Every row evicted by the trim is no newer than every retained row. -/
theorem trimLog_evicted_oldest (log : List HBEntry) (e r : HBEntry)
    (he : e ∈ log) (hev : e ∉ trimLog log) (hr : r ∈ trimLog log) :
    e.timestamp ≤ r.timestamp := by
  by_contra hlt
  push_neg at hlt
  have hgt : hbKeyGt e r = true := by
    simp only [hbKeyGt, Bool.or_eq_true, decide_eq_true_eq]
    exact Or.inl hlt
  have hrlt : hbRank log r < HEARTBEAT_RETENTION := by
    have h2 := (List.mem_filter.mp hr).2
    simpa using h2
  have helt : ¬ hbRank log e < HEARTBEAT_RETENTION := by
    intro hcon
    exact hev (List.mem_filter.mpr ⟨he, by simpa using hcon⟩)
  have hlt2 := hbRank_lt_of_hbKeyGt he hgt
  omega

/-- With pairwise-distinct rowids the trim keeps at most 1000 rows. -/
theorem trimLog_length_le (log : List HBEntry)
    (hnd : log.Pairwise (fun a b => a.rowid ≠ b.rowid)) :
    (trimLog log).length ≤ HEARTBEAT_RETENTION := by
  have hK : (trimLog log).Pairwise (fun a b => a.rowid ≠ b.rowid) := hnd.filter _
  have hmemlog : ∀ x ∈ trimLog log, x ∈ log := fun x hx => (List.mem_filter.mp hx).1
  have hrne : (trimLog log).Pairwise (fun a b => hbRank log a ≠ hbRank log b) := by
    apply List.Pairwise.imp_of_mem ?_ hK
    intro a b hal hbl hne
    rcases hbKeyGt_total_of_ne hne with hgt | hgt
    · exact Nat.ne_of_lt (hbRank_lt_of_hbKeyGt (hmemlog a hal) hgt)
    · exact (Nat.ne_of_lt (hbRank_lt_of_hbKeyGt (hmemlog b hbl) hgt)).symm
  have hnodup : ((trimLog log).map (hbRank log)).Nodup := List.pairwise_map.mpr hrne
  have hbound : ∀ x ∈ (trimLog log).map (hbRank log), x < HEARTBEAT_RETENTION := by
    intro x hx
    obtain ⟨e2, he2, rfl⟩ := List.mem_map.mp hx
    have h2 := (List.mem_filter.mp he2).2
    simpa using h2
  have h1 : ((trimLog log).map (hbRank log)).toFinset.card =
      ((trimLog log).map (hbRank log)).length := List.toFinset_card_of_nodup hnodup
  have h2 : ((trimLog log).map (hbRank log)).toFinset ⊆ Finset.range HEARTBEAT_RETENTION := by
    intro x hx
    exact Finset.mem_range.mpr (hbound x (List.mem_toFinset.mp hx))
  have h3 := Finset.card_le_card h2
  rw [h1, Finset.card_range, List.length_map] at h3
  exact h3


/-- One `log_heartbeat` call preserves the log invariant. -/
theorem logInv_log_heartbeat (st : ServerState) (d ip : String) (v : PyVal) (now : Nat)
    (h : LogInv st) : LogInv (log_heartbeat st d ip v now) := by
  cases hpv : parseVersion v with
  | none =>
    have hsame : log_heartbeat st d ip v now = st := by
      unfold log_heartbeat
      rw [hpv]
    rw [hsame]
    exact h
  | some ver =>
    obtain ⟨hlt, hnd, _⟩ := h
    have hlog : (log_heartbeat st d ip v now).heartbeat_logs =
        trimLog (st.heartbeat_logs ++
          [(⟨st.nextRowid, pyTake 255 d, pyTake 45 ip, now, ver⟩ : HBEntry)]) := by
      unfold log_heartbeat
      rw [hpv]
    have hnext : (log_heartbeat st d ip v now).nextRowid = st.nextRowid + 1 := by
      unfold log_heartbeat
      rw [hpv]
    have hnd2 : (st.heartbeat_logs ++
        [(⟨st.nextRowid, pyTake 255 d, pyTake 45 ip, now, ver⟩ : HBEntry)]).Pairwise
        (fun a b => a.rowid ≠ b.rowid) := by
      rw [List.pairwise_append]
      refine ⟨hnd, List.pairwise_singleton _ _, ?_⟩
      intro a ha b hb
      have hblit := List.mem_singleton.mp hb
      subst hblit
      exact Nat.ne_of_lt (hlt a ha)
    refine ⟨?_, ?_, ?_⟩
    · intro e he
      rw [hlog] at he
      rw [hnext]
      have he2 := (List.mem_filter.mp he).1
      rcases List.mem_append.mp he2 with hold | hnew
      · exact Nat.lt_succ_of_lt (hlt e hold)
      · rw [List.mem_singleton.mp hnew]
        exact Nat.lt_succ_self _
    · rw [hlog]
      exact hnd2.filter _
    · rw [hlog]
      exact trimLog_length_le _ hnd2

/-- Every trace of `log_heartbeat` calls from the empty store keeps the log
invariant. -/
theorem logInv_runHeartbeatLog (calls : List (String × String × PyVal × Nat)) :
    LogInv (runHeartbeatLog calls) := by
  have base : LogInv emptyState :=
    ⟨by simp [emptyState], by simp [emptyState], by simp [emptyState]⟩
  suffices h : ∀ st, LogInv st →
      LogInv (calls.foldl (fun s c => log_heartbeat s c.1 c.2.1 c.2.2.1 c.2.2.2) st) from
    h emptyState base
  induction calls with
  | nil => intro st h; exact h
  | cons c t ih => intro st h; exact ih _ (logInv_log_heartbeat _ _ _ _ _ h)

/-- C3: after any trace of heartbeat-log appends from a fresh store the log
never holds more than 1000 entries, and every entry evicted by the trim that
accompanies an insert has a timestamp no newer than every retained entry. -/
theorem heartbeat_log_retention (calls : List (String × String × PyVal × Nat)) :
    (runHeartbeatLog calls).heartbeat_logs.length ≤ HEARTBEAT_RETENTION ∧
    ∀ (log : List HBEntry) (e r : HBEntry),
      e ∈ log → e ∉ trimLog log → r ∈ trimLog log → e.timestamp ≤ r.timestamp :=
  ⟨(logInv_runHeartbeatLog calls).2.2,
   fun log e r he hev hr => trimLog_evicted_oldest log e r he hev hr⟩

/-- C3 witness: a concrete one-call trace respects the bound. -/
theorem heartbeat_log_retention_witness :
    (runHeartbeatLog [("d", "8.8.8.8", .vInt 1, 5)]).heartbeat_logs.length ≤
      HEARTBEAT_RETENTION :=
  (heartbeat_log_retention [("d", "8.8.8.8", .vInt 1, 5)]).1
